import Mathlib

/-!
Shallow embedding of `src/main.py` of the rfc_protect repository: a batch bot
that reconciles page-protection state of highly used catalog items against a
usage-derived policy.  Pure data manipulation (pandas dataframe operations)
becomes list processing; the remote wiki, the replica database and the
subscriber API become an explicit `World` record of response functions; the
Python exceptions raised by `add_protection` / `remove_protection` (all caught
by `main`) become an explicit outcome value returned per case.
-/

namespace RfcProtect

set_option maxHeartbeats 1000000

/-! ### Protection dictionaries

`pywikibot`'s `protection()` returns a Python dict mapping a protection type to
a `(level, expiry)` pair.  We model dicts as association lists with Python dict
equality (same keys, same values). -/

abbrev ProtDict := List (String × (String × String))

/-- Python `d[k]` lookup (first matching key). -/
def dictLookup (d : ProtDict) (k : String) : Option (String × String) :=
  match d with
  | [] => none
  | (k', v) :: rest => if k' == k then some v else dictLookup rest k

/-- Python dict equality `d1 == d2`: the same keys carry the same values. -/
def dictEqb (a b : ProtDict) : Bool :=
  a.all (fun p => dictLookup b p.1 == some p.2) &&
    b.all (fun p => dictLookup a p.1 == some p.2)

/-- Python `d[k] = v`: replace the value when the key is present, else append. -/
def dictInsert (d : ProtDict) (k : String) (v : String × String) : ProtDict :=
  if (dictLookup d k).isSome then
    d.map (fun p => if p.1 == k then (k, v) else p)
  else
    d ++ [(k, v)]

/-- Python `d.pop(k)`: remove the key. -/
def dictPop (d : ProtDict) (k : String) : ProtDict :=
  d.filter (fun p => p.1 != k)

/-- `Config.UNPROTECTED = {}` from the source. -/
def UNPROTECTED : ProtDict := []

/-- `Config.SEMIPROTECTED = {'edit': ('autoconfirmed', 'infinity')}` from the source. -/
def SEMIPROTECTED : ProtDict := [("edit", ("autoconfirmed", "infinity"))]

/-! ### Input rows and configuration -/

/-- One raw row of the `page_restrictions`/`logging` join in
`get_indefinitely_semiprotected_items`. -/
structure ProtRow where
  qid : String
  logTimestamp : Int
  username : String
deriving DecidableEq, Repr

/-- One row of the early-protections file in `get_early_item_protections`. -/
structure EarlyRow where
  qid : String
  logId : Int
  admin : String
deriving DecidableEq, Repr

/-- One parsed row of the WDCM toplist (columns `qid`, `entityUsageCount`). -/
structure UsageRow where
  qid : String
  entityUsageCount : Int
deriving DecidableEq, Repr

/-- One row of the merged dataframe built by `protection_to_lift`
(`protected.merge(top, on='qid', how='left')`); `entityUsageCount` is `none`
when the left join produced NaN. -/
structure LiftCase where
  qid : String
  logTimestamp : Int
  username : String
  entityUsageCount : Option Int
deriving DecidableEq, Repr

/-- The single row returned by the logging query inside
`is_whitelisted_early_protection` (`ORDER BY log_timestamp DESC LIMIT 1`);
the source indexes `log_info[0]`, presuming the result is nonempty. -/
structure LogRow where
  log_qid : String
  log_id : Int
  log_actorname : String
deriving DecidableEq, Repr

/-- Remote state of one item as observed through `pywikibot.ItemPage`. -/
structure ItemState where
  pageExists : Bool
  isRedirectPage : Bool
  protection : ProtDict
deriving DecidableEq, Repr

/-- One remote protection-mutation call (`q_item.protect(...)`). -/
structure Mutation where
  qid : String
  protections : List (String × String)
  expiry : Option String
deriving DecidableEq, Repr

/-- The external world: remote item state, the subscriber API, the replica
logging table, and whether a protect call on a given item would succeed
(`RuntimeError` from `q_item.protect` when `false`). -/
structure World where
  items : String → ItemState
  subscribers : String → Int
  latestProtectLog : String → LogRow
  saveOk : String → Bool

/-- The task configuration from the `Config` class of the source. -/
structure Config where
  entityUsageLimit : Int
  cooldownUsageLimit : Int
  addLimit : Option Nat
  liftLimit : Option Nat
  minSubscribedProjects : Option Int
  simulate : Bool
  hardLimit : Option Nat
  whitelistedAdmins : List String

/-- Keys of `Counter.added_protection` in the source. -/
inductive AddOutcome where
  | belowlimit
  | blacklisted
  | belowsubscribedprojects
  | itemnotexists
  | itemisredirect
  | itemhassomeprotection
  | couldntchangetosemiprotection
  | savefailed
  | successful
deriving DecidableEq, Repr

/-- Keys of `Counter.removed_protection` in the source. -/
inductive RemOutcome where
  | overlimit
  | notwhitelisted
  | itemnotexists
  | itemisredirect
  | itemisnotsemiprotected
  | couldntremoveprotection
  | savefailed
  | successful
deriving DecidableEq, Repr

/-! ### Dataset loading -/

/-- Ordered insertion for `sortByLe`. -/
def insertLe {α : Type} (le : α → α → Bool) (a : α) : List α → List α
  | [] => [a]
  | b :: bs => if le a b then a :: b :: bs else b :: insertLe le a bs

/-- Pandas `sort_values` over a comparison key, as a structurally recursive
insertion sort (the pandas default quicksort fixes no tie order either; any
sort by the key is a faithful model). -/
def sortByLe {α : Type} (le : α → α → Bool) : List α → List α
  | [] => []
  | a :: as => insertLe le a (sortByLe le as)

/-- Pandas `drop_duplicates(subset=key, keep='last')`: keep a row exactly when
its key does not occur again later in the list. -/
def dropDupKeepLast {α : Type} (key : α → String) : List α → List α
  | [] => []
  | r :: rest =>
    if (rest.map key).contains (key r) then dropDupKeepLast key rest
    else r :: dropDupKeepLast key rest

/-- `get_indefinitely_semiprotected_items`: the raw query result sorted
ascending by `logTimestamp`, then collapsed to one row per `qid` keeping the
last (= a largest-timestamp) row. -/
def get_indefinitely_semiprotected_items (raw : List ProtRow) : List ProtRow :=
  dropDupKeepLast (fun r => r.qid)
    (sortByLe (fun a b => a.logTimestamp ≤ b.logTimestamp) raw)

/-- `get_early_item_protections`: the early-protections file sorted ascending
by `logId`, collapsed to one row per `qid` keeping the last. -/
def get_early_item_protections (raw : List EarlyRow) : List EarlyRow :=
  dropDupKeepLast (fun r => r.qid)
    (sortByLe (fun a b => a.logId ≤ b.logId) raw)

/-- A cell of the `entityUsageCount` column of the cached WDCM csv, before
`read_csv` applies the declared `int` dtype. -/
inductive CsvCell where
  | missing
  | numeric (n : Int)
  | nonNumeric (s : String)
deriving DecidableEq, Repr

/-- One raw line of the cached WDCM csv file. -/
structure RawUsageRow where
  qid : String
  entityUsageCount : CsvCell
deriving DecidableEq, Repr

/-- Applying dtype `int` to one cell: pandas raises on a missing value
("Integer column has NA values") and on a non-numeric literal. -/
def readIntCell : CsvCell → Except String Int
  | CsvCell.numeric n => Except.ok n
  | CsvCell.missing => Except.error "Integer column has NA values"
  | CsvCell.nonNumeric s => Except.error ("invalid literal for int: " ++ s)

/-- The integer value of a numeric cell (statement device for the loader
lemmas; only applied to cells known to be numeric). -/
def cellInt : CsvCell → Int
  | CsvCell.numeric n => n
  | _ => 0

/-- Row-by-row parsing of the usage column under dtype `int`: the first
malformed cell aborts the whole parse with its error. -/
def parseIntRows : List RawUsageRow → Except String (List UsageRow)
  | [] => Except.ok []
  | r :: rest =>
    match readIntCell r.entityUsageCount with
    | Except.error e => Except.error e
    | Except.ok n =>
      match parseIntRows rest with
      | Except.error e => Except.error e
      | Except.ok tail => Except.ok (UsageRow.mk r.qid n :: tail)

/-- `get_list_of_highly_used_items_from_wdcm`: `read_csv` with explicit
`names` and `header=0` consumes the first line as the header row, then parses
every remaining row under dtype `int`, failing on the first malformed cell. -/
def get_list_of_highly_used_items_from_wdcm (csv : List RawUsageRow) :
    Except String (List UsageRow) :=
  parseIntRows (csv.drop 1)

/-! ### Set classification -/

/-- Pandas `.dropna()`.  Every column of the modelled frames is non-null at
this point (`entityUsageCount` was loaded under dtype `int`, the database
columns are non-null), so it keeps every row. -/
def dropna {α : Type} (l : List α) : List α := l

/-- `protected_highly_used_items`: protected rows whose qid has an early
grant or whose protecting admin is whitelisted. -/
def protected_highly_used_items (cfg : Config) (protectedRows : List ProtRow)
    (early : List EarlyRow) : List ProtRow :=
  protectedRows.filter (fun r =>
    ((early.map (fun e => e.qid)).contains r.qid) ||
      (cfg.whitelistedAdmins.contains r.username))

/-- `protection_missing`: toplist rows whose qid is not currently protected
and whose usage is at or above `ENTITYUSAGELIMIT`, sorted descending by
usage.  The blacklist is not consulted here. -/
def protection_missing (cfg : Config) (top : List UsageRow)
    (protectedRows : List ProtRow) : List UsageRow :=
  sortByLe (fun a b => b.entityUsageCount ≤ a.entityUsageCount)
    (dropna (top.filter (fun r =>
      (!((protectedRows.map (fun p => p.qid)).contains r.qid)) &&
        (cfg.entityUsageLimit ≤ r.entityUsageCount))))

/-- Pandas `protected.merge(top, on='qid', how='left')`: every protected row
joined with each matching toplist row; rows without a match keep a null
usage count. -/
def mergeLeft (protectedRows : List ProtRow) (top : List UsageRow) : List LiftCase :=
  protectedRows.flatMap (fun p =>
    match top.filter (fun t => t.qid == p.qid) with
    | [] => [LiftCase.mk p.qid p.logTimestamp p.username none]
    | ms => ms.map (fun m =>
        LiftCase.mk p.qid p.logTimestamp p.username (some m.entityUsageCount)))

/-- Sort key used on the merged lift frame: usage descending, with null usage
sorted last (pandas `na_position='last'`). -/
def liftDescLe (a b : LiftCase) : Bool :=
  match a.entityUsageCount, b.entityUsageCount with
  | none, none => true
  | none, some _ => false
  | some _, none => true
  | some x, some y => y ≤ x

/-- `protection_to_lift`: protected rows whose qid does not appear in the
toplist at or above `COOLDOWNUSAGELIMIT`, left-joined with the toplist and
sorted descending by usage. -/
def protection_to_lift (cfg : Config) (top : List UsageRow)
    (protectedRows : List ProtRow) : List LiftCase :=
  sortByLe liftDescLe
    (mergeLeft
      (dropna (protectedRows.filter (fun r =>
        !(((top.filter (fun t => cfg.cooldownUsageLimit ≤ t.entityUsageCount)).map
            (fun t => t.qid)).contains r.qid))))
      top)

/-! ### Protection state machine -/

/-- The `MINSUBSCRIBEDPROJECTS` guard of `add_protection`: only evaluated when
the policy is configured. -/
def belowMinSubscribed (cfg : Config) (w : World) (qid : String) : Bool :=
  match cfg.minSubscribedProjects with
  | none => false
  | some m => decide (w.subscribers qid < m)

/-- NaN-aware `case.entityUsageCount >= limit`: a Python float NaN compares
false against any number. -/
def usageGE (u : Option Int) (lim : Int) : Bool :=
  match u with
  | none => false
  | some v => decide (lim ≤ v)

/-- The remote effect of a successful `q_item.protect` call: the item's
protection dict becomes the requested shape. -/
def setProtection (w : World) (qid : String) (p : ProtDict) : World :=
  { w with items := fun q =>
      if q == qid then { w.items q with protection := p } else w.items q }

/-- `is_whitelisted_early_protection`: demand exactly one early-grant row,
then compare the most recent protect-log row of the item against the grant's
qid, log id and admin name. -/
def is_whitelisted_early_protection (w : World) (c : LiftCase)
    (early_protection : List EarlyRow) : Bool :=
  if early_protection.length != 1 then false
  else
    match early_protection with
    | [e] =>
      let log := w.latestProtectLog c.qid
      log.log_qid == e.qid && log.log_id == e.logId && log.log_actorname == e.admin
    | _ => false

/-- The lift-authorization condition checked at the top of `remove_protection`
(line 436 of the source, negated): the protecting admin is whitelisted, or the
case is a whitelisted early protection. -/
def lift_authorized (cfg : Config) (w : World) (c : LiftCase)
    (early_protection : List EarlyRow) : Bool :=
  cfg.whitelistedAdmins.contains c.username ||
    is_whitelisted_early_protection w c early_protection

/-- `add_protection`: the guarded add transition.  The returned triple is the
outcome counter key incremented on that path, the world after the call, and
the protect calls issued. -/
def add_protection (cfg : Config) (w : World) (blacklist : List String)
    (c : UsageRow) : AddOutcome × World × List Mutation :=
  if c.entityUsageCount < cfg.entityUsageLimit then
    (AddOutcome.belowlimit, w, [])
  else if blacklist.contains c.qid then
    (AddOutcome.blacklisted, w, [])
  else if belowMinSubscribed cfg w c.qid then
    (AddOutcome.belowsubscribedprojects, w, [])
  else
    let q_item := w.items c.qid
    if !q_item.pageExists then
      (AddOutcome.itemnotexists, w, [])
    else if q_item.isRedirectPage then
      (AddOutcome.itemisredirect, w, [])
    else
      let current_protection := q_item.protection
      if !dictEqb current_protection UNPROTECTED then
        (AddOutcome.itemhassomeprotection, w, [])
      else
        let modified := dictInsert current_protection "edit" ("autoconfirmed", "infinity")
        if !dictEqb modified SEMIPROTECTED then
          (AddOutcome.couldntchangetosemiprotection, w, [])
        else if cfg.simulate then
          (AddOutcome.successful, w, [])
        else if w.saveOk c.qid then
          (AddOutcome.successful, setProtection w c.qid SEMIPROTECTED,
            [Mutation.mk c.qid [("edit", "autoconfirmed")] (some "infinity")])
        else
          (AddOutcome.savefailed, w,
            [Mutation.mk c.qid [("edit", "autoconfirmed")] (some "infinity")])

/-- `remove_protection`: the guarded lift transition.  The redirect guard is
commented out in the source and therefore absent here. -/
def remove_protection (cfg : Config) (w : World) (early_protection : List EarlyRow)
    (c : LiftCase) : RemOutcome × World × List Mutation :=
  if usageGE c.entityUsageCount cfg.entityUsageLimit then
    (RemOutcome.overlimit, w, [])
  else if !lift_authorized cfg w c early_protection then
    (RemOutcome.notwhitelisted, w, [])
  else
    let q_item := w.items c.qid
    if !q_item.pageExists then
      (RemOutcome.itemnotexists, w, [])
    else
      let current_protection := q_item.protection
      if !dictEqb current_protection SEMIPROTECTED then
        (RemOutcome.itemisnotsemiprotected, w, [])
      else
        let modified := dictPop current_protection "edit"
        if !dictEqb modified UNPROTECTED then
          (RemOutcome.couldntremoveprotection, w, [])
        else if cfg.simulate then
          (RemOutcome.successful, w, [])
        else if w.saveOk c.qid then
          (RemOutcome.successful, setProtection w c.qid UNPROTECTED,
            [Mutation.mk c.qid [("edit", "all")] none])
        else
          (RemOutcome.savefailed, w, [Mutation.mk c.qid [("edit", "all")] none])

/-! ### Run controller -/

/-- The per-pass case loop of `main`: process cases in order; after each case,
stop (`break`) once the 1-based processed count has reached `HARDLIMIT` when
one is configured.  Returns the outcomes in processing order, the final world
and the protect calls issued. -/
def runCases {σ β : Type} (step : World → σ → β × World × List Mutation)
    (hard : Option Nat) : World → Nat → List σ → List β × World × List Mutation
  | w, _, [] => ([], w, [])
  | w, n, c :: cs =>
    let r := step w c
    let stop : Bool :=
      match hard with
      | some h => decide (h ≤ n + 1)
      | none => false
    if stop then ([r.1], r.2.1, r.2.2)
    else
      let rest := runCases step hard r.2.1 (n + 1) cs
      (r.1 :: rest.1, rest.2.1, r.2.2 ++ rest.2.2)

/-- The pass gate of `main`: `LIMIT is None or size <= LIMIT`. -/
def passAllowed (limit : Option Nat) (size : Nat) : Bool :=
  match limit with
  | none => true
  | some l => decide (size ≤ l)

/-- Result of one pass: outcomes in order, final world, protect calls issued,
and the informational lines printed at pass level (the all-or-nothing skip
message; per-case lines are in bijection with `outcomes`). -/
structure PassOut (β : Type) where
  outcomes : List β
  world : World
  mutations : List Mutation
  info : List String

/-- The per-case early-grant selection of `main`
(`early_item_protections[early_item_protections['qid'] == case.qid]`). -/
def earlyFor (early : List EarlyRow) (qid : String) : List EarlyRow :=
  early.filter (fun e => e.qid == qid)

/-- The lift pass of `main`: skipped in its entirety when the candidate list
is larger than `LIFTLIMIT`; otherwise each case is processed with the
early-grant rows filtered to its qid. -/
def liftPass (cfg : Config) (w : World) (early : List EarlyRow)
    (cases : List LiftCase) : PassOut RemOutcome :=
  if passAllowed cfg.liftLimit cases.length then
    let r := runCases
      (fun w c => remove_protection cfg w (earlyFor early c.qid) c)
      cfg.hardLimit w 0 cases
    PassOut.mk r.1 r.2.1 r.2.2 []
  else
    PassOut.mk [] w [] ["Do not lift any protections"]

/-- The add pass of `main`: skipped in its entirety when the candidate list is
larger than `ADDLIMIT`. -/
def addPass (cfg : Config) (w : World) (blacklist : List String)
    (cases : List UsageRow) : PassOut AddOutcome :=
  if passAllowed cfg.addLimit cases.length then
    let r := runCases (fun w c => add_protection cfg w blacklist c)
      cfg.hardLimit w 0 cases
    PassOut.mk r.1 r.2.1 r.2.2 []
  else
    PassOut.mk [] w [] ["Do not add any protections"]

/-- The loaded input data of one run, after the run-fatal load phase
succeeded. -/
structure RunInput where
  protRaw : List ProtRow
  earlyRaw : List EarlyRow
  top : List UsageRow
  blacklist : List String
  world : World

/-- Observable result of one run of `main`. -/
structure RunResult where
  liftOutcomes : List RemOutcome
  addOutcomes : List AddOutcome
  liftInfo : List String
  addInfo : List String
  mutations : List Mutation
  world : World

/-- The add candidate list computed by `main`
(`item_protection_to_add = protection_missing(wdcm_toplist, indef_semiprotected_items)`). -/
def toAddOf (cfg : Config) (inp : RunInput) : List UsageRow :=
  protection_missing cfg inp.top (get_indefinitely_semiprotected_items inp.protRaw)

/-- The lift candidate list computed by `main`
(`item_protection_to_lift = protection_to_lift(wdcm_toplist, indef_protected_highly_used_items)`). -/
def toLiftOf (cfg : Config) (inp : RunInput) : List LiftCase :=
  protection_to_lift cfg inp.top
    (protected_highly_used_items cfg (get_indefinitely_semiprotected_items inp.protRaw)
      (get_early_item_protections inp.earlyRaw))

/-- The reconciliation part of `main`: dedup the loaded tables, classify, run
the lift pass, then the add pass on the resulting world. -/
def main_run (cfg : Config) (inp : RunInput) : RunResult :=
  let lp := liftPass cfg inp.world (get_early_item_protections inp.earlyRaw) (toLiftOf cfg inp)
  let ap := addPass cfg lp.world inp.blacklist (toAddOf cfg inp)
  RunResult.mk lp.outcomes ap.outcomes lp.info ap.info
    (lp.mutations ++ ap.mutations) ap.world

/-- Count of one outcome key in a pass, i.e. the final value of that counter. -/
def countRem (os : List RemOutcome) (k : RemOutcome) : Nat :=
  (os.filter (fun o => o == k)).length

/-- Count of one outcome key in the add pass. -/
def countAdd (os : List AddOutcome) (k : AddOutcome) : Nat :=
  (os.filter (fun o => o == k)).length

/-- The full `Counter.added_protection` key set. -/
def allAddOutcomes : List AddOutcome :=
  [AddOutcome.belowlimit, AddOutcome.blacklisted, AddOutcome.belowsubscribedprojects,
   AddOutcome.itemnotexists, AddOutcome.itemisredirect, AddOutcome.itemhassomeprotection,
   AddOutcome.couldntchangetosemiprotection, AddOutcome.savefailed, AddOutcome.successful]

/-! ### Concrete example data (for closed evaluations) -/

/-- A configuration mirroring the source defaults, with simulate off. -/
def exampleCfg : Config :=
  Config.mk 500 300 (some 1000) (some 100) none false none ["MsynABot"]

/-- A world where every item exists, is no redirect, is unprotected, has no
subscribers, and where every protect call would succeed. -/
def exampleWorld : World :=
  World.mk (fun _ => ItemState.mk true false []) (fun _ => 0)
    (fun _ => LogRow.mk "" 0 "") (fun _ => true)

/-- A run input whose usage feed repeats one identifier twice. -/
def exampleDupInput : RunInput :=
  RunInput.mk [] [] [UsageRow.mk "Q1" 600, UsageRow.mk "Q1" 600] [] exampleWorld

/-- A cached WDCM csv: a header line, one well-formed row, one row with a
missing usage count. -/
def exampleCsv : List RawUsageRow :=
  [RawUsageRow.mk "qid" (CsvCell.nonNumeric "entityUsageCount"),
   RawUsageRow.mk "Q1" (CsvCell.numeric 600),
   RawUsageRow.mk "Q2" CsvCell.missing]

/-- A run input with one trusted current protection (Q2, now low-usage) and
one unprotected highly used item (Q1). -/
def exampleInput2 : RunInput :=
  RunInput.mk [ProtRow.mk "Q2" 5 "MsynABot"] []
    [UsageRow.mk "Q1" 600, UsageRow.mk "Q2" 100] [] exampleWorld

/-- A world whose items are redirects and indefinitely semiprotected. -/
def exampleRedirectWorld : World :=
  World.mk (fun _ => ItemState.mk true true SEMIPROTECTED) (fun _ => 0)
    (fun _ => LogRow.mk "" 0 "") (fun _ => true)

/-! ### Helper lemmas: membership, sorting, deduplication -/

theorem contains_iff_memStr (l : List String) (a : String) :
    l.contains a = true ↔ a ∈ l := by
  simp [List.contains]

theorem mem_insertLe {α : Type} (le : α → α → Bool) (a x : α) (l : List α) :
    x ∈ insertLe le a l ↔ x = a ∨ x ∈ l := by
  induction l with
  | nil => simp [insertLe]
  | cons b bs ih =>
    simp only [insertLe]
    split
    · simp [List.mem_cons]
    · simp only [List.mem_cons, ih]
      tauto

theorem perm_insertLe {α : Type} (le : α → α → Bool) (a : α) (l : List α) :
    (insertLe le a l).Perm (a :: l) := by
  induction l with
  | nil => exact List.Perm.refl _
  | cons b bs ih =>
    simp only [insertLe]
    split
    · exact List.Perm.refl _
    · exact (ih.cons b).trans (List.Perm.swap a b bs)

theorem perm_sortByLe {α : Type} (le : α → α → Bool) (l : List α) :
    (sortByLe le l).Perm l := by
  induction l with
  | nil => exact List.Perm.refl _
  | cons a as ih => exact (perm_insertLe le a _).trans (ih.cons a)

theorem mem_sortByLe {α : Type} (le : α → α → Bool) (x : α) (l : List α) :
    x ∈ sortByLe le l ↔ x ∈ l :=
  (perm_sortByLe le l).mem_iff

theorem pairwise_insertLe {α : Type} (le : α → α → Bool)
    (htrans : ∀ a b c, le a b = true → le b c = true → le a c = true)
    (htotal : ∀ a b, le a b = true ∨ le b a = true)
    (a : α) (l : List α) (h : l.Pairwise (fun x y => le x y = true)) :
    (insertLe le a l).Pairwise (fun x y => le x y = true) := by
  induction l with
  | nil => simp [insertLe]
  | cons b bs ih =>
    rcases List.pairwise_cons.mp h with ⟨hb, hbs⟩
    simp only [insertLe]
    split
    · rename_i hab
      refine List.pairwise_cons.mpr ⟨?_, h⟩
      intro x hx
      rcases List.mem_cons.mp hx with rfl | hxbs
      · exact hab
      · exact htrans a b x hab (hb x hxbs)
    · rename_i hab
      have hba : le b a = true := (htotal a b).resolve_left hab
      refine List.pairwise_cons.mpr ⟨?_, ih hbs⟩
      intro x hx
      rcases (mem_insertLe le a x bs).mp hx with rfl | hxbs
      · exact hba
      · exact hb x hxbs

theorem pairwise_sortByLe {α : Type} (le : α → α → Bool)
    (htrans : ∀ a b c, le a b = true → le b c = true → le a c = true)
    (htotal : ∀ a b, le a b = true ∨ le b a = true) (l : List α) :
    (sortByLe le l).Pairwise (fun x y => le x y = true) := by
  induction l with
  | nil => simp [sortByLe]
  | cons a as ih => exact pairwise_insertLe le htrans htotal a _ ih

theorem mem_dropDupKeepLast {α : Type} (key : α → String) (l : List α) (r : α)
    (h : r ∈ dropDupKeepLast key l) : r ∈ l := by
  induction l with
  | nil => simp [dropDupKeepLast] at h
  | cons x xs ih =>
    simp only [dropDupKeepLast] at h
    split at h
    · exact List.mem_cons_of_mem x (ih h)
    · rcases List.mem_cons.mp h with rfl | h'
      · exact List.mem_cons_self _ _
      · exact List.mem_cons_of_mem x (ih h')

theorem keys_dropDupKeepLast {α : Type} (key : α → String) (l : List α) (q : String) :
    q ∈ (dropDupKeepLast key l).map key ↔ q ∈ l.map key := by
  induction l with
  | nil => simp [dropDupKeepLast]
  | cons x xs ih =>
    simp only [dropDupKeepLast]
    split
    · rename_i hmem
      rw [ih]
      have hx : key x ∈ xs.map key := by
        rcases (contains_iff_memStr _ _).mp hmem with h
        exact h
      simp only [List.map_cons, List.mem_cons]
      constructor
      · intro h; exact Or.inr h
      · rintro (rfl | h)
        · exact hx
        · exact h
    · simp [List.map_cons, ih]

theorem nodupKeys_dropDupKeepLast {α : Type} (key : α → String) (l : List α) :
    ((dropDupKeepLast key l).map key).Nodup := by
  induction l with
  | nil => simp [dropDupKeepLast]
  | cons x xs ih =>
    simp only [dropDupKeepLast]
    split
    · exact ih
    · rename_i hmem
      simp only [List.map_cons]
      refine List.nodup_cons.mpr ⟨?_, ih⟩
      intro hk
      exact hmem ((contains_iff_memStr _ _).mpr ((keys_dropDupKeepLast key xs _).mp hk))

theorem maxVal_dropDupKeepLast {α : Type} (key : α → String) (val : α → Int)
    (l : List α) (hs : l.Pairwise (fun a b => val a ≤ val b)) :
    ∀ r ∈ dropDupKeepLast key l, ∀ s ∈ l, key s = key r → val s ≤ val r := by
  induction l with
  | nil => intro r hr; simp [dropDupKeepLast] at hr
  | cons x xs ih =>
    rcases List.pairwise_cons.mp hs with ⟨hx, hxs⟩
    intro r hr s hsmem hks
    simp only [dropDupKeepLast] at hr
    split at hr
    · rcases List.mem_cons.mp hsmem with rfl | hs'
      · exact hx r (mem_dropDupKeepLast key xs r hr)
      · exact ih hxs r hr s hs' hks
    · rename_i hnmem
      rcases List.mem_cons.mp hr with rfl | hr'
      · rcases List.mem_cons.mp hsmem with rfl | hs'
        · exact le_refl _
        · exfalso
          apply hnmem
          apply (contains_iff_memStr _ _).mpr
          rw [← hks]
          exact List.mem_map_of_mem key hs'
      · rcases List.mem_cons.mp hsmem with rfl | hs'
        · exact hx r (mem_dropDupKeepLast key xs r hr')
        · exact ih hxs r hr' s hs' hks

/-! ### Helper lemmas: protection dictionaries -/

theorem dictEqb_unprotected_eq_nil (d : ProtDict) (h : dictEqb d UNPROTECTED = true) :
    d = [] := by
  cases d with
  | nil => rfl
  | cons p rest => simp [dictEqb, dictLookup, UNPROTECTED] at h

theorem dict_add_post (d : ProtDict) (h : dictEqb d UNPROTECTED = true) :
    dictEqb (dictInsert d "edit" ("autoconfirmed", "infinity")) SEMIPROTECTED = true := by
  rw [dictEqb_unprotected_eq_nil d h]
  decide

theorem dict_keys_semi (d : ProtDict) (h : dictEqb d SEMIPROTECTED = true) :
    ∀ p ∈ d, p.1 = "edit" := by
  intro p hp
  simp only [dictEqb, Bool.and_eq_true] at h
  have h1 := h.1
  rw [List.all_eq_true] at h1
  have hl := h1 p hp
  by_cases he : p.1 = "edit"
  · exact he
  · exfalso
    have : ("edit" == p.1) = false := by
      simp [BEq.beq]
      exact fun hc => he hc.symm
    simp [SEMIPROTECTED, dictLookup, this] at hl

theorem dict_remove_post (d : ProtDict) (h : dictEqb d SEMIPROTECTED = true) :
    dictEqb (dictPop d "edit") UNPROTECTED = true := by
  have hk := dict_keys_semi d h
  have hnil : dictPop d "edit" = [] := by
    rw [dictPop, List.filter_eq_nil_iff]
    intro p hp
    simp [hk p hp]
  rw [hnil]
  decide

/-! ### Helper lemmas: the two state-machine steps -/

theorem setProtection_items_ne (w : World) (qid : String) (p : ProtDict) (q : String)
    (h : q ≠ qid) : (setProtection w qid p).items q = w.items q := by
  simp [setProtection, h]

theorem add_protection_simulate (cfg : Config) (w : World) (bl : List String)
    (c : UsageRow) (h : cfg.simulate = true) :
    (add_protection cfg w bl c).2 = (w, []) := by
  unfold add_protection
  dsimp only
  repeat' split
  all_goals simp_all

theorem remove_protection_simulate (cfg : Config) (w : World) (early : List EarlyRow)
    (c : LiftCase) (h : cfg.simulate = true) :
    (remove_protection cfg w early c).2 = (w, []) := by
  unfold remove_protection
  dsimp only
  repeat' split
  all_goals simp_all

theorem add_protection_world_cases (cfg : Config) (w : World) (bl : List String)
    (c : UsageRow) :
    (add_protection cfg w bl c).2.1 = w ∨
      (add_protection cfg w bl c).2.1 = setProtection w c.qid SEMIPROTECTED := by
  unfold add_protection
  dsimp only
  repeat' split
  all_goals simp

theorem remove_protection_world_cases (cfg : Config) (w : World) (early : List EarlyRow)
    (c : LiftCase) :
    (remove_protection cfg w early c).2.1 = w ∨
      (remove_protection cfg w early c).2.1 = setProtection w c.qid UNPROTECTED := by
  unfold remove_protection
  dsimp only
  repeat' split
  all_goals simp

theorem add_protection_items_ne (cfg : Config) (w : World) (bl : List String)
    (c : UsageRow) (q : String) (hq : q ≠ c.qid) :
    ((add_protection cfg w bl c).2.1).items q = w.items q := by
  rcases add_protection_world_cases cfg w bl c with h | h <;> rw [h]
  · exact setProtection_items_ne w c.qid SEMIPROTECTED q hq

theorem remove_protection_items_ne (cfg : Config) (w : World) (early : List EarlyRow)
    (c : LiftCase) (q : String) (hq : q ≠ c.qid) :
    ((remove_protection cfg w early c).2.1).items q = w.items q := by
  rcases remove_protection_world_cases cfg w early c with h | h <;> rw [h]
  · exact setProtection_items_ne w c.qid UNPROTECTED q hq

theorem add_protection_fields (cfg : Config) (w : World) (bl : List String)
    (c : UsageRow) :
    ((add_protection cfg w bl c).2.1).subscribers = w.subscribers ∧
      ((add_protection cfg w bl c).2.1).latestProtectLog = w.latestProtectLog ∧
      ((add_protection cfg w bl c).2.1).saveOk = w.saveOk := by
  rcases add_protection_world_cases cfg w bl c with h | h <;> rw [h] <;>
    exact ⟨rfl, rfl, rfl⟩

theorem remove_protection_fields (cfg : Config) (w : World) (early : List EarlyRow)
    (c : LiftCase) :
    ((remove_protection cfg w early c).2.1).subscribers = w.subscribers ∧
      ((remove_protection cfg w early c).2.1).latestProtectLog = w.latestProtectLog ∧
      ((remove_protection cfg w early c).2.1).saveOk = w.saveOk := by
  rcases remove_protection_world_cases cfg w early c with h | h <;> rw [h] <;>
    exact ⟨rfl, rfl, rfl⟩

theorem add_protection_lockstep (cfg : Config) (w w0 : World) (bl : List String)
    (c : UsageRow) (hs : cfg.simulate = false)
    (hitems : w.items c.qid = w0.items c.qid)
    (hsub : w.subscribers = w0.subscribers)
    (hsave : w.saveOk = w0.saveOk)
    (hok : w0.saveOk c.qid = true) :
    (add_protection cfg w bl c).1 =
      (add_protection { cfg with simulate := true } w0 bl c).1 := by
  unfold add_protection belowMinSubscribed
  dsimp only
  rw [hs, hitems, hsub, hsave, hok]
  repeat' split
  all_goals try contradiction
  all_goals rfl

theorem remove_protection_lockstep (cfg : Config) (w w0 : World)
    (early : List EarlyRow) (c : LiftCase) (hs : cfg.simulate = false)
    (hitems : w.items c.qid = w0.items c.qid)
    (hlog : w.latestProtectLog = w0.latestProtectLog)
    (hsave : w.saveOk = w0.saveOk)
    (hok : w0.saveOk c.qid = true) :
    (remove_protection cfg w early c).1 =
      (remove_protection { cfg with simulate := true } w0 early c).1 := by
  unfold remove_protection lift_authorized is_whitelisted_early_protection
  dsimp only
  rw [hs, hitems, hlog, hsave, hok]
  repeat' split
  all_goals try contradiction
  all_goals rfl

/-! ### Helper lemmas: the per-pass case loop -/


theorem runCases_simulate {σ β : Type} (step : World → σ → β × World × List Mutation)
    (hstep : ∀ w c, (step w c).2 = (w, [])) (hard : Option Nat) :
    ∀ (cs : List σ) (w : World) (n : Nat),
    (runCases step hard w n cs).2 = (w, []) := by
  intro cs
  induction cs with
  | nil => intro w n; rfl
  | cons c cs ih =>
    intro w n
    have hw : (step w c).2.1 = w := by rw [hstep]
    have hm : (step w c).2.2 = [] := by rw [hstep]
    simp only [runCases]
    split
    · rw [hw, hm]
    · rw [hw, hm, ih w (n + 1)]
      rfl

theorem runCases_items_outside {σ β : Type} (step : World → σ → β × World × List Mutation)
    (qidOf : σ → String)
    (hloc : ∀ w c q, q ≠ qidOf c → ((step w c).2.1).items q = w.items q)
    (hard : Option Nat) :
    ∀ (cs : List σ) (w : World) (n : Nat) (q : String), q ∉ cs.map qidOf →
    ((runCases step hard w n cs).2.1).items q = w.items q := by
  intro cs
  induction cs with
  | nil => intro w n q _; rfl
  | cons c cs ih =>
    intro w n q hq
    simp only [List.map_cons, List.mem_cons, not_or] at hq
    simp only [runCases]
    split
    · exact hloc w c q hq.1
    · rw [ih _ (n + 1) q hq.2, hloc w c q hq.1]

theorem runCases_fields {σ β : Type} (step : World → σ → β × World × List Mutation)
    (hf : ∀ w c, ((step w c).2.1).subscribers = w.subscribers ∧
      ((step w c).2.1).latestProtectLog = w.latestProtectLog ∧
      ((step w c).2.1).saveOk = w.saveOk)
    (hard : Option Nat) :
    ∀ (cs : List σ) (w : World) (n : Nat),
    ((runCases step hard w n cs).2.1).subscribers = w.subscribers ∧
      ((runCases step hard w n cs).2.1).latestProtectLog = w.latestProtectLog ∧
      ((runCases step hard w n cs).2.1).saveOk = w.saveOk := by
  intro cs
  induction cs with
  | nil => intro w n; exact ⟨rfl, rfl, rfl⟩
  | cons c cs ih =>
    intro w n
    simp only [runCases]
    split
    · exact hf w c
    · rcases ih ((step w c).2.1) (n + 1) with ⟨h1, h2, h3⟩
      rcases hf w c with ⟨g1, g2, g3⟩
      exact ⟨h1.trans g1, h2.trans g2, h3.trans g3⟩

theorem runCases_hardlimit_take {σ β : Type} (step : World → σ → β × World × List Mutation) :
    ∀ (cs : List σ) (w : World) (n h : Nat), n < h →
    runCases step (some h) w n cs = runCases step none w n (cs.take (h - n)) := by
  intro cs
  induction cs with
  | nil => intro w n h _; simp [runCases]
  | cons c cs ih =>
    intro w n h hn
    by_cases hstop : h ≤ n + 1
    · have h1 : h - n = 1 := by omega
      rw [h1]
      simp only [List.take_succ_cons, List.take_zero, runCases]
      rw [if_pos (by simpa using hstop)]
      simp [runCases]
    · have h1 : h - n = (h - (n + 1)) + 1 := by omega
      rw [h1, List.take_succ_cons]
      simp only [runCases]
      rw [if_neg (by simpa using hstop)]
      rw [ih _ (n + 1) h (by omega), if_neg Bool.false_ne_true]

theorem runCases_none_length {σ β : Type} (step : World → σ → β × World × List Mutation) :
    ∀ (cs : List σ) (w : World) (n : Nat),
    ((runCases step none w n cs).1).length = cs.length := by
  intro cs
  induction cs with
  | nil => intro w n; rfl
  | cons c cs ih =>
    intro w n
    simp only [runCases]
    rw [if_neg Bool.false_ne_true]
    dsimp only
    rw [List.length_cons, ih _ (n + 1), List.length_cons]

theorem runCases_outcomes_are_step_outcomes {σ β : Type}
    (step : World → σ → β × World × List Mutation) (hard : Option Nat) :
    ∀ (cs : List σ) (w : World) (n : Nat) (o : β),
    o ∈ (runCases step hard w n cs).1 → ∃ w' c, c ∈ cs ∧ o = (step w' c).1 := by
  intro cs
  induction cs with
  | nil => intro w n o ho; simp [runCases] at ho
  | cons c cs ih =>
    intro w n o ho
    simp only [runCases] at ho
    split at ho
    · rcases List.mem_singleton.mp ho with rfl
      exact ⟨w, c, List.mem_cons_self _ _, rfl⟩
    · rcases List.mem_cons.mp ho with rfl | ho'
      · exact ⟨w, c, List.mem_cons_self _ _, rfl⟩
      · rcases ih _ (n + 1) o ho' with ⟨w', c', hc', rfl⟩
        exact ⟨w', c', List.mem_cons_of_mem _ hc', rfl⟩

/-! ### Helper lemmas: simulate lockstep per pass -/

theorem runCases_add_lockstep (cfg : Config) (bl : List String) (hs : cfg.simulate = false) :
    ∀ (cs : List UsageRow) (w w0 : World) (n : Nat),
    (∀ c ∈ cs, w.items c.qid = w0.items c.qid) →
    w.subscribers = w0.subscribers →
    w.saveOk = w0.saveOk →
    (∀ q, w0.saveOk q = true) →
    ((cs.map (fun c => c.qid)).Nodup) →
    (runCases (fun w c => add_protection cfg w bl c) cfg.hardLimit w n cs).1 =
      (runCases (fun w c => add_protection { cfg with simulate := true } w bl c)
        cfg.hardLimit w0 n cs).1 := by
  intro cs
  induction cs with
  | nil => intro w w0 n _ _ _ _ _; rfl
  | cons c cs ih =>
    intro w w0 n hall hsub hsave hok hnodup
    have hhead : (add_protection cfg w bl c).1 =
        (add_protection { cfg with simulate := true } w0 bl c).1 :=
      add_protection_lockstep cfg w w0 bl c hs (hall c (List.mem_cons_self _ _))
        hsub hsave (hok c.qid)
    have hsimw : (add_protection { cfg with simulate := true } w0 bl c).2.1 = w0 := by
      rw [add_protection_simulate _ _ _ _ rfl]
    have hnod : c.qid ∉ cs.map (fun c => c.qid) ∧ (cs.map (fun c => c.qid)).Nodup := by
      rw [List.map_cons] at hnodup
      exact List.nodup_cons.mp hnodup
    simp only [runCases]
    split
    · rw [hhead]
    · have hall' : ∀ c' ∈ cs,
          ((add_protection cfg w bl c).2.1).items c'.qid = w0.items c'.qid := by
        intro c' hc'
        have hne : c'.qid ≠ c.qid := by
          intro he
          exact hnod.1 (he ▸ List.mem_map_of_mem _ hc')
        rw [add_protection_items_ne cfg w bl c c'.qid hne]
        exact hall c' (List.mem_cons_of_mem _ hc')
      obtain ⟨f1, f2, f3⟩ := add_protection_fields cfg w bl c
      rw [hhead, hsimw, ih _ w0 (n + 1) hall' (f1.trans hsub) (f3.trans hsave) hok hnod.2]

theorem runCases_remove_lockstep (cfg : Config) (early : List EarlyRow)
    (hs : cfg.simulate = false) :
    ∀ (cs : List LiftCase) (w w0 : World) (n : Nat),
    (∀ c ∈ cs, w.items c.qid = w0.items c.qid) →
    w.latestProtectLog = w0.latestProtectLog →
    w.saveOk = w0.saveOk →
    (∀ q, w0.saveOk q = true) →
    ((cs.map (fun c => c.qid)).Nodup) →
    (runCases (fun w c => remove_protection cfg w (earlyFor early c.qid) c)
        cfg.hardLimit w n cs).1 =
      (runCases (fun w c =>
          remove_protection { cfg with simulate := true } w (earlyFor early c.qid) c)
        cfg.hardLimit w0 n cs).1 := by
  intro cs
  induction cs with
  | nil => intro w w0 n _ _ _ _ _; rfl
  | cons c cs ih =>
    intro w w0 n hall hlog hsave hok hnodup
    have hhead : (remove_protection cfg w (earlyFor early c.qid) c).1 =
        (remove_protection { cfg with simulate := true } w0 (earlyFor early c.qid) c).1 :=
      remove_protection_lockstep cfg w w0 (earlyFor early c.qid) c hs
        (hall c (List.mem_cons_self _ _)) hlog hsave (hok c.qid)
    have hsimw :
        (remove_protection { cfg with simulate := true } w0 (earlyFor early c.qid) c).2.1
          = w0 := by
      rw [remove_protection_simulate _ _ _ _ rfl]
    have hnod : c.qid ∉ cs.map (fun c => c.qid) ∧ (cs.map (fun c => c.qid)).Nodup := by
      rw [List.map_cons] at hnodup
      exact List.nodup_cons.mp hnodup
    simp only [runCases]
    split
    · rw [hhead]
    · have hall' : ∀ c' ∈ cs,
          ((remove_protection cfg w (earlyFor early c.qid) c).2.1).items c'.qid
            = w0.items c'.qid := by
        intro c' hc'
        have hne : c'.qid ≠ c.qid := by
          intro he
          exact hnod.1 (he ▸ List.mem_map_of_mem _ hc')
        rw [remove_protection_items_ne cfg w (earlyFor early c.qid) c c'.qid hne]
        exact hall c' (List.mem_cons_of_mem _ hc')
      obtain ⟨f1, f2, f3⟩ := remove_protection_fields cfg w (earlyFor early c.qid) c
      rw [hhead, hsimw, ih _ w0 (n + 1) hall' (f2.trans hlog) (f3.trans hsave) hok hnod.2]

/-! ### Helper lemmas: set classification -/


theorem mem_protection_missing (cfg : Config) (top : List UsageRow)
    (P : List ProtRow) (r : UsageRow) :
    r ∈ protection_missing cfg top P ↔
      r ∈ top ∧ ((P.map (fun p => p.qid)).contains r.qid) = false ∧
        cfg.entityUsageLimit ≤ r.entityUsageCount := by
  unfold protection_missing dropna
  rw [mem_sortByLe, List.mem_filter]
  simp only [Bool.and_eq_true, Bool.not_eq_true', decide_eq_true_eq, and_assoc]

theorem mem_mergeLeft_qid (P : List ProtRow) (top : List UsageRow) (c : LiftCase)
    (h : c ∈ mergeLeft P top) : c.qid ∈ P.map (fun p => p.qid) := by
  unfold mergeLeft at h
  rw [List.mem_flatMap] at h
  rcases h with ⟨p, hp, hc⟩
  have hq : c.qid = p.qid := by
    cases hfl : top.filter (fun t => t.qid == p.qid) with
    | nil =>
      rw [hfl] at hc
      simp only [List.mem_singleton] at hc
      rw [hc]
    | cons m ms =>
      rw [hfl] at hc
      rw [List.mem_map] at hc
      rcases hc with ⟨x, _, rfl⟩
      rfl
  rw [hq]
  exact List.mem_map_of_mem _ hp

theorem mem_protection_to_lift_qid (cfg : Config) (top : List UsageRow)
    (P : List ProtRow) (c : LiftCase) (h : c ∈ protection_to_lift cfg top P) :
    c.qid ∈ P.map (fun p => p.qid) := by
  unfold protection_to_lift dropna at h
  rw [mem_sortByLe] at h
  have h2 := mem_mergeLeft_qid _ _ _ h
  rw [List.mem_map] at h2
  rcases h2 with ⟨p, hp, hpq⟩
  rw [List.mem_filter] at hp
  rw [← hpq]
  exact List.mem_map_of_mem _ hp.1

theorem mem_protected_highly_used (cfg : Config) (P : List ProtRow)
    (early : List EarlyRow) (r : ProtRow)
    (h : r ∈ protected_highly_used_items cfg P early) : r ∈ P := by
  unfold protected_highly_used_items at h
  exact (List.mem_filter.mp h).1

theorem toAdd_toLift_qid_disjoint (cfg : Config) (inp : RunInput) (q : String)
    (hq : q ∈ (toAddOf cfg inp).map (fun r => r.qid)) :
    q ∉ (toLiftOf cfg inp).map (fun c => c.qid) := by
  intro hl
  rw [List.mem_map] at hq hl
  rcases hq with ⟨r, hr, rfl⟩
  rcases hl with ⟨c, hc, hcq⟩
  have h1 := (mem_protection_missing _ _ _ _).mp hr
  have h2 := mem_protection_to_lift_qid _ _ _ _ hc
  rw [List.mem_map] at h2
  rcases h2 with ⟨p, hp, hpq⟩
  have hpmem := mem_protected_highly_used _ _ _ _ hp
  have : r.qid ∈ ((get_indefinitely_semiprotected_items inp.protRaw).map
      (fun p => p.qid)) := by
    rw [← hcq, ← hpq]
    exact List.mem_map_of_mem _ hpmem
  rw [← contains_iff_memStr] at this
  rw [h1.2.1] at this
  exact Bool.false_ne_true this


theorem nodup_keys_sortByLe {α : Type} (le : α → α → Bool) (key : α → String)
    (l : List α) (h : (l.map key).Nodup) : ((sortByLe le l).map key).Nodup :=
  ((perm_sortByLe le l).map key).nodup_iff.mpr h

theorem nodup_keys_filter {α : Type} (p : α → Bool) (key : α → String)
    (l : List α) (h : (l.map key).Nodup) : ((l.filter p).map key).Nodup :=
  ((List.filter_sublist l).map key).nodup h

theorem filter_qid_len_le_one (top : List UsageRow) (x : String)
    (htop : (top.map (fun t => t.qid)).Nodup) :
    (top.filter (fun t => t.qid == x)).length ≤ 1 := by
  induction top with
  | nil => simp
  | cons t ts ih =>
    rw [List.map_cons, List.nodup_cons] at htop
    by_cases h : (t.qid == x) = true
    · have hnil : ts.filter (fun t => t.qid == x) = [] := by
        rw [List.filter_eq_nil_iff]
        intro a ha hax
        apply htop.1
        have hx : a.qid = x := by simpa using hax
        have ht : t.qid = x := by simpa using h
        rw [ht, ← hx]
        exact List.mem_map_of_mem _ ha
      simp [List.filter_cons, h, hnil]
    · simp only [List.filter_cons, h, if_false]
      exact ih htop.2

theorem mergeLeft_keys (P : List ProtRow) (top : List UsageRow)
    (htop : (top.map (fun t => t.qid)).Nodup) :
    (mergeLeft P top).map (fun c => c.qid) = P.map (fun p => p.qid) := by
  induction P with
  | nil => rfl
  | cons p P ih =>
    unfold mergeLeft at ih ⊢
    rw [List.flatMap_cons, List.map_append, ih, List.map_cons]
    cases hfl : top.filter (fun t => t.qid == p.qid) with
    | nil => rfl
    | cons m ms =>
      have hle := filter_qid_len_le_one top p.qid htop
      rw [hfl] at hle
      have hms : ms = [] := by
        cases ms with
        | nil => rfl
        | cons a b => simp at hle
      subst hms
      rfl

theorem nodup_toAdd_keys (cfg : Config) (top : List UsageRow) (P : List ProtRow)
    (h : (top.map (fun t => t.qid)).Nodup) :
    ((protection_missing cfg top P).map (fun r => r.qid)).Nodup := by
  unfold protection_missing dropna
  exact nodup_keys_sortByLe _ _ _ (nodup_keys_filter _ _ _ h)

theorem nodup_toLift_keys (cfg : Config) (top : List UsageRow) (P : List ProtRow)
    (htop : (top.map (fun t => t.qid)).Nodup)
    (hP : (P.map (fun p => p.qid)).Nodup) :
    ((protection_to_lift cfg top P).map (fun c => c.qid)).Nodup := by
  unfold protection_to_lift dropna
  apply nodup_keys_sortByLe
  rw [mergeLeft_keys _ _ htop]
  exact nodup_keys_filter _ _ _ hP

theorem nodup_phu_keys (cfg : Config) (P : List ProtRow) (early : List EarlyRow)
    (hP : (P.map (fun p => p.qid)).Nodup) :
    ((protected_highly_used_items cfg P early).map (fun p => p.qid)).Nodup := by
  unfold protected_highly_used_items
  exact nodup_keys_filter _ _ _ hP

/-! ### Claim theorems -/


/-- C9: the in-memory post-derivation checks are unreachable error branches.
In the add operation a pre-state that passed the unprotected guard always
yields exactly the semiprotected shape after setting the edit restriction in
memory, so the couldntchangetosemiprotection outcome never occurs; in the
remove operation a semiprotected pre-state always yields the unprotected
shape after removing the edit key, so couldntremoveprotection never occurs. -/
theorem claim_C9_postchecks_unreachable (cfg : Config) (w : World)
    (blacklist : List String) (c : UsageRow) (early : List EarlyRow)
    (lc : LiftCase) (d : ProtDict) :
    ((add_protection cfg w blacklist c).1 ==
        AddOutcome.couldntchangetosemiprotection) = false ∧
    ((remove_protection cfg w early lc).1 ==
        RemOutcome.couldntremoveprotection) = false ∧
    (dictEqb d UNPROTECTED = true →
      dictEqb (dictInsert d "edit" ("autoconfirmed", "infinity")) SEMIPROTECTED = true) ∧
    (dictEqb d SEMIPROTECTED = true →
      dictEqb (dictPop d "edit") UNPROTECTED = true) := by
  refine ⟨?_, ?_, dict_add_post d, dict_remove_post d⟩
  · unfold add_protection
    dsimp only
    repeat' split
    all_goals try rfl
    all_goals
      rename_i hUnprot hBad
      exfalso
      have h1 : dictEqb (w.items c.qid).protection UNPROTECTED = true := by
        revert hUnprot
        cases hd : dictEqb (w.items c.qid).protection UNPROTECTED <;> simp [hd]
      rw [dict_add_post _ h1] at hBad
      simp at hBad
  · unfold remove_protection
    dsimp only
    repeat' split
    all_goals try rfl
    all_goals
      rename_i hSemi hBad
      exfalso
      have h1 : dictEqb (w.items lc.qid).protection SEMIPROTECTED = true := by
        revert hSemi
        cases hd : dictEqb (w.items lc.qid).protection SEMIPROTECTED <;> simp [hd]
      rw [dict_remove_post _ h1] at hBad
      simp at hBad


/-- Witness for C9: the two shape implications evaluated at the concrete
unprotected and semiprotected dictionaries. -/
theorem claim_C9_witness :
    dictEqb (dictInsert [] "edit" ("autoconfirmed", "infinity")) SEMIPROTECTED = true ∧
    dictEqb (dictPop SEMIPROTECTED "edit") UNPROTECTED = true :=
  ⟨(claim_C9_postchecks_unreachable exampleCfg exampleWorld [] (UsageRow.mk "Q1" 600)
      [] (LiftCase.mk "Q1" 0 "x" none) []).2.2.1 (by decide),
   (claim_C9_postchecks_unreachable exampleCfg exampleWorld [] (UsageRow.mk "Q1" 600)
      [] (LiftCase.mk "Q1" 0 "x" none) SEMIPROTECTED).2.2.2 (by decide)⟩


/-- C3: the lift-authorization check returns authorized immediately and
independently of durable history when the actor is trusted; with an
untrusted actor it returns not authorized whenever the number of
legacy-grant rows for the identifier is not exactly one, regardless of
history; with exactly one grant row it returns authorized if and only if
the most recent protect-log row matches the grant on qid, log id and admin
name simultaneously. -/
theorem claim_C3_lift_authorization (cfg : Config) (w w' : World)
    (early : List EarlyRow) (c : LiftCase) :
    (cfg.whitelistedAdmins.contains c.username = true →
      lift_authorized cfg w c (earlyFor early c.qid) = true ∧
      lift_authorized cfg w c (earlyFor early c.qid) =
        lift_authorized cfg w' c (earlyFor early c.qid)) ∧
    (cfg.whitelistedAdmins.contains c.username = false →
      (earlyFor early c.qid).length ≠ 1 →
      lift_authorized cfg w c (earlyFor early c.qid) = false) ∧
    (cfg.whitelistedAdmins.contains c.username = false →
      ∀ e : EarlyRow, earlyFor early c.qid = [e] →
      (lift_authorized cfg w c (earlyFor early c.qid) = true ↔
        ((w.latestProtectLog c.qid).log_qid = e.qid ∧
         (w.latestProtectLog c.qid).log_id = e.logId ∧
         (w.latestProtectLog c.qid).log_actorname = e.admin))) := by
  refine ⟨?_, ?_, ?_⟩
  · intro h
    have hm : c.username ∈ cfg.whitelistedAdmins := (contains_iff_memStr _ _).mp h
    constructor
    · simp [lift_authorized, hm]
    · simp [lift_authorized, hm]
  · intro h hlen
    simp only [lift_authorized, h, Bool.false_or]
    unfold is_whitelisted_early_protection
    rw [if_pos]
    simp [hlen]
  · intro h e he
    rw [he]
    simp only [lift_authorized, h, Bool.false_or]
    unfold is_whitelisted_early_protection
    simp [Bool.and_eq_true, and_assoc]

/-- Witness for C3: a trusted actor is authorized; an untrusted actor with
zero grant rows is not; an untrusted actor with one exactly-matching grant
row is authorized. -/
theorem claim_C3_witness :
    lift_authorized exampleCfg exampleWorld
      (LiftCase.mk "Q1" 0 "MsynABot" (some 100)) (earlyFor [] "Q1") = true ∧
    lift_authorized exampleCfg exampleWorld
      (LiftCase.mk "Q2" 0 "Someone" (some 100)) (earlyFor [] "Q2") = false ∧
    lift_authorized exampleCfg
      (World.mk (fun _ => ItemState.mk true false []) (fun _ => 0)
        (fun _ => LogRow.mk "Q3" 7 "AdminA") (fun _ => true))
      (LiftCase.mk "Q3" 0 "Someone" (some 100))
      (earlyFor [EarlyRow.mk "Q3" 7 "AdminA"] "Q3") = true :=
  ⟨((claim_C3_lift_authorization exampleCfg exampleWorld exampleWorld []
      (LiftCase.mk "Q1" 0 "MsynABot" (some 100))).1 (by decide)).1,
   (claim_C3_lift_authorization exampleCfg exampleWorld exampleWorld []
      (LiftCase.mk "Q2" 0 "Someone" (some 100))).2.1 (by decide) (by decide),
   ((claim_C3_lift_authorization exampleCfg
      (World.mk (fun _ => ItemState.mk true false []) (fun _ => 0)
        (fun _ => LogRow.mk "Q3" 7 "AdminA") (fun _ => true))
      (World.mk (fun _ => ItemState.mk true false []) (fun _ => 0)
        (fun _ => LogRow.mk "Q3" 7 "AdminA") (fun _ => true))
      [EarlyRow.mk "Q3" 7 "AdminA"]
      (LiftCase.mk "Q3" 0 "Someone" (some 100))).2.2 (by decide)
      (EarlyRow.mk "Q3" 7 "AdminA") (by decide)).mpr (by decide)⟩


/-- C7: after loading, the current-protections table has exactly one row per
identifier occurring in the raw rows, each kept row is a raw row carrying the
largest timestamp of its identifier; likewise the legacy-grants table keeps
one row per identifier with the largest sequence number. -/
theorem claim_C7_dedup_keeps_latest (protRaw : List ProtRow) (earlyRaw : List EarlyRow) :
    (((get_indefinitely_semiprotected_items protRaw).map (fun r => r.qid)).Nodup ∧
      (∀ r ∈ get_indefinitely_semiprotected_items protRaw, r ∈ protRaw) ∧
      (∀ q : String, q ∈ protRaw.map (fun r => r.qid) ↔
        q ∈ (get_indefinitely_semiprotected_items protRaw).map (fun r => r.qid)) ∧
      (∀ r ∈ get_indefinitely_semiprotected_items protRaw, ∀ s ∈ protRaw,
        s.qid = r.qid → s.logTimestamp ≤ r.logTimestamp)) ∧
    (((get_early_item_protections earlyRaw).map (fun r => r.qid)).Nodup ∧
      (∀ r ∈ get_early_item_protections earlyRaw, r ∈ earlyRaw) ∧
      (∀ q : String, q ∈ earlyRaw.map (fun r => r.qid) ↔
        q ∈ (get_early_item_protections earlyRaw).map (fun r => r.qid)) ∧
      (∀ r ∈ get_early_item_protections earlyRaw, ∀ s ∈ earlyRaw,
        s.qid = r.qid → s.logId ≤ r.logId)) := by
  constructor
  · refine ⟨nodupKeys_dropDupKeepLast _ _, ?_, ?_, ?_⟩
    · intro r hr
      exact (mem_sortByLe _ _ _).mp (mem_dropDupKeepLast _ _ _ hr)
    · intro q
      unfold get_indefinitely_semiprotected_items
      rw [keys_dropDupKeepLast]
      exact ((perm_sortByLe _ protRaw).map (fun r => r.qid)).mem_iff.symm
    · intro r hr s hs hqs
      have hpw : (sortByLe (fun a b => a.logTimestamp ≤ b.logTimestamp) protRaw).Pairwise
          (fun a b => a.logTimestamp ≤ b.logTimestamp) := by
        refine (pairwise_sortByLe _ ?_ ?_ protRaw).imp ?_
        · intro a b c hab hbc
          simp only [decide_eq_true_eq] at hab hbc ⊢
          omega
        · intro a b
          rcases Int.le_total a.logTimestamp b.logTimestamp with h | h
          · exact Or.inl (by simpa using h)
          · exact Or.inr (by simpa using h)
        · intro a b h
          simpa using h
      unfold get_indefinitely_semiprotected_items at hr
      exact maxVal_dropDupKeepLast (fun r => r.qid) (fun r => r.logTimestamp) _ hpw r hr
        s ((mem_sortByLe _ _ _).mpr hs) hqs
  · refine ⟨nodupKeys_dropDupKeepLast _ _, ?_, ?_, ?_⟩
    · intro r hr
      exact (mem_sortByLe _ _ _).mp (mem_dropDupKeepLast _ _ _ hr)
    · intro q
      unfold get_early_item_protections
      rw [keys_dropDupKeepLast]
      exact ((perm_sortByLe _ earlyRaw).map (fun r => r.qid)).mem_iff.symm
    · intro r hr s hs hqs
      have hpw : (sortByLe (fun a b => a.logId ≤ b.logId) earlyRaw).Pairwise
          (fun a b => a.logId ≤ b.logId) := by
        refine (pairwise_sortByLe _ ?_ ?_ earlyRaw).imp ?_
        · intro a b c hab hbc
          simp only [decide_eq_true_eq] at hab hbc ⊢
          omega
        · intro a b
          rcases Int.le_total a.logId b.logId with h | h
          · exact Or.inl (by simpa using h)
          · exact Or.inr (by simpa using h)
        · intro a b h
          simpa using h
      unfold get_early_item_protections at hr
      exact maxVal_dropDupKeepLast (fun r => r.qid) (fun r => r.logId) _ hpw r hr
        s ((mem_sortByLe _ _ _).mpr hs) hqs

/-- Witness for C7: of two rows for Q1 the loader keeps exactly the one with
the larger timestamp, and the kept row dominates both raw rows. -/
theorem claim_C7_witness :
    (∀ r ∈ get_indefinitely_semiprotected_items
        [ProtRow.mk "Q1" 10 "A", ProtRow.mk "Q1" 20 "B"],
      ∀ s ∈ [ProtRow.mk "Q1" 10 "A", ProtRow.mk "Q1" 20 "B"],
        s.qid = r.qid → s.logTimestamp ≤ r.logTimestamp) ∧
    get_indefinitely_semiprotected_items
        [ProtRow.mk "Q1" 10 "A", ProtRow.mk "Q1" 20 "B"] = [ProtRow.mk "Q1" 20 "B"] :=
  ⟨(claim_C7_dedup_keeps_latest
      [ProtRow.mk "Q1" 10 "A", ProtRow.mk "Q1" 20 "B"] []).1.2.2.2, by decide⟩




theorem parseIntRows_ok (rows : List RawUsageRow)
    (h : ∀ r ∈ rows, ∃ n : Int, r.entityUsageCount = CsvCell.numeric n) :
    parseIntRows rows =
      Except.ok (rows.map (fun r => UsageRow.mk r.qid (cellInt r.entityUsageCount))) := by
  induction rows with
  | nil => rfl
  | cons r rows ih =>
    rcases h r (List.mem_cons_self _ _) with ⟨n, hn⟩
    have ih' := ih (fun r hr => h r (List.mem_cons_of_mem _ hr))
    simp [parseIntRows, hn, readIntCell, cellInt, ih']

theorem parseIntRows_error (rows : List RawUsageRow) (r : RawUsageRow)
    (hr : r ∈ rows) (hbad : ∀ n : Int, r.entityUsageCount ≠ CsvCell.numeric n) :
    ∃ msg, parseIntRows rows = Except.error msg := by
  induction rows with
  | nil => cases hr
  | cons a rows ih =>
    rcases List.mem_cons.mp hr with rfl | hr'
    · cases hc : r.entityUsageCount with
      | numeric n => exact absurd hc (hbad n)
      | missing =>
        exact ⟨"Integer column has NA values", by simp [parseIntRows, hc, readIntCell]⟩
      | nonNumeric s =>
        exact ⟨"invalid literal for int: " ++ s, by simp [parseIntRows, hc, readIntCell]⟩
    · cases ha : readIntCell a.entityUsageCount with
      | ok n =>
        rcases ih hr' with ⟨msg, hmsg⟩
        exact ⟨msg, by simp [parseIntRows, ha, hmsg]⟩
      | error e =>
        exact ⟨e, by simp [parseIntRows, ha]⟩

/-- C8 (amended): under dtype int, loading the usage ranking succeeds with
every data row parsed when all usage cells are numeric; a row whose usage
count is missing or non-numeric makes the whole load fail with an error (the
row is not dropped and not defaulted). -/
theorem claim_C8_amended (csv : List RawUsageRow) :
    ((∀ r ∈ csv.drop 1, ∃ n : Int, r.entityUsageCount = CsvCell.numeric n) →
      get_list_of_highly_used_items_from_wdcm csv =
        Except.ok ((csv.drop 1).map
          (fun r => UsageRow.mk r.qid (cellInt r.entityUsageCount)))) ∧
    (∀ r ∈ csv.drop 1, (∀ n : Int, r.entityUsageCount ≠ CsvCell.numeric n) →
      ∃ msg, get_list_of_highly_used_items_from_wdcm csv = Except.error msg) := by
  constructor
  · intro h
    exact parseIntRows_ok _ h
  · intro r hr hbad
    exact parseIntRows_error _ r hr hbad

/-- Counterexample to C8 as stated: on a feed whose second data row has a
missing usage count, loading raises rather than dropping the row and
succeeding with the remaining well-formed rows. -/
theorem claim_C8_counterexample :
    get_list_of_highly_used_items_from_wdcm exampleCsv =
      Except.error "Integer column has NA values" ∧
    get_list_of_highly_used_items_from_wdcm exampleCsv ≠
      Except.ok [UsageRow.mk "Q1" 600] := by
  refine ⟨rfl, ?_⟩
  intro h
  rw [show get_list_of_highly_used_items_from_wdcm exampleCsv =
      Except.error "Integer column has NA values" from rfl] at h
  cases h

/-- Witness for C8 (amended): an all-numeric feed loads successfully with
all rows. -/
theorem claim_C8_witness :
    get_list_of_highly_used_items_from_wdcm
        [RawUsageRow.mk "qid" (CsvCell.nonNumeric "entityUsageCount"),
         RawUsageRow.mk "Q1" (CsvCell.numeric 600)] =
      Except.ok [UsageRow.mk "Q1" 600] :=
  (claim_C8_amended
      [RawUsageRow.mk "qid" (CsvCell.nonNumeric "entityUsageCount"),
       RawUsageRow.mk "Q1" (CsvCell.numeric 600)]).1
    (by
      intro r hr
      simp only [List.drop_succ_cons, List.drop_zero, List.mem_singleton] at hr
      exact ⟨600, by rw [hr]⟩)




/-- C1 (amended): the finalized toAdd list contains exactly the usage rows
with usageCount at or above usageLimit whose identifier is absent from the
current-protections table, sorted descending by usageCount.  The deny-list is
not consulted during classification; a deny-listed identifier stays in toAdd
and is rejected only by the deny-list guard inside the add operation, which
yields the blacklisted outcome and performs no mutation. -/
theorem claim_C1_amended (cfg : Config) (top : List UsageRow) (protRows : List ProtRow) :
    (∀ r : UsageRow, r ∈ protection_missing cfg top protRows ↔
      (r ∈ top ∧ ((protRows.map (fun p => p.qid)).contains r.qid) = false ∧
        cfg.entityUsageLimit ≤ r.entityUsageCount)) ∧
    (protection_missing cfg top protRows).Pairwise
      (fun a b => b.entityUsageCount ≤ a.entityUsageCount) ∧
    (∀ (w : World) (blacklist : List String) (c : UsageRow),
      blacklist.contains c.qid = true →
      ¬(c.entityUsageCount < cfg.entityUsageLimit) →
      add_protection cfg w blacklist c = (AddOutcome.blacklisted, w, [])) := by
  refine ⟨mem_protection_missing cfg top protRows, ?_, ?_⟩
  · unfold protection_missing dropna
    refine (pairwise_sortByLe _ ?_ ?_ _).imp ?_
    · intro a b c hab hbc
      simp only [decide_eq_true_eq] at hab hbc ⊢
      omega
    · intro a b
      rcases Int.le_total a.entityUsageCount b.entityUsageCount with h | h
      · exact Or.inr (by simpa using h)
      · exact Or.inl (by simpa using h)
    · intro a b h
      simpa using h
  · intro w blacklist c hbl hlt
    have hm : c.qid ∈ blacklist := (contains_iff_memStr _ _).mp hbl
    simp [add_protection, hm, hlt]

/-- Counterexample to C1 as stated: with usage row (Q1, 600), empty current
protections and deny-list containing Q1, the finalized toAdd still contains
Q1 — deny-listed identifiers are not filtered out of toAdd. -/
theorem claim_C1_counterexample :
    protection_missing exampleCfg [UsageRow.mk "Q1" 600] [] = [UsageRow.mk "Q1" 600] ∧
    (["Q1"] : List String).contains "Q1" = true := by
  constructor <;> decide

/-- Witness for C1 (amended): Q1 is a member of the computed toAdd, and the
add operation rejects it with the blacklisted outcome when the deny-list
holds Q1. -/
theorem claim_C1_witness :
    UsageRow.mk "Q1" 600 ∈ protection_missing exampleCfg [UsageRow.mk "Q1" 600] [] ∧
    add_protection exampleCfg exampleWorld ["Q1"] (UsageRow.mk "Q1" 600) =
      (AddOutcome.blacklisted, exampleWorld, []) :=
  ⟨((claim_C1_amended exampleCfg [UsageRow.mk "Q1" 600] []).1
      (UsageRow.mk "Q1" 600)).mpr ⟨by decide, by decide, by decide⟩,
   (claim_C1_amended exampleCfg [UsageRow.mk "Q1" 600] []).2.2 exampleWorld ["Q1"]
      (UsageRow.mk "Q1" 600) (by decide) (by decide)⟩

/-- C4: the computed toAdd and toLift sets are disjoint on identifiers for
every input: toAdd draws only from usage rows absent from current
protections, toLift only from the currently-protected trusted population. -/
theorem claim_C4_disjoint (cfg : Config) (inp : RunInput) :
    (((toAddOf cfg inp).map (fun r => r.qid)).filter
      (fun q => ((toLiftOf cfg inp).map (fun c => c.qid)).contains q) = []) ∧
    (∀ r ∈ toAddOf cfg inp,
      (((get_indefinitely_semiprotected_items inp.protRaw).map
        (fun p => p.qid)).contains r.qid) = false) ∧
    (∀ c ∈ toLiftOf cfg inp,
      c.qid ∈ (protected_highly_used_items cfg
        (get_indefinitely_semiprotected_items inp.protRaw)
        (get_early_item_protections inp.earlyRaw)).map (fun p => p.qid)) := by
  refine ⟨?_, ?_, ?_⟩
  · rw [List.filter_eq_nil_iff]
    intro q hq hcon
    exact toAdd_toLift_qid_disjoint cfg inp q hq ((contains_iff_memStr _ _).mp hcon)
  · intro r hr
    exact ((mem_protection_missing _ _ _ _).mp hr).2.1
  · intro c hc
    exact mem_protection_to_lift_qid _ _ _ _ hc

/-- Witness for C4: on a concrete input with nonempty toAdd and toLift, the
toAdd member Q1 is outside current protections and the toLift member Q2 is in
the protected trusted population. -/
theorem claim_C4_witness :
    (((get_indefinitely_semiprotected_items exampleInput2.protRaw).map
      (fun p => p.qid)).contains "Q1") = false ∧
    (LiftCase.mk "Q2" 5 "MsynABot" (some 100)).qid ∈
      (protected_highly_used_items exampleCfg
        (get_indefinitely_semiprotected_items exampleInput2.protRaw)
        (get_early_item_protections exampleInput2.earlyRaw)).map (fun p => p.qid) :=
  ⟨(claim_C4_disjoint exampleCfg exampleInput2).2.1 (UsageRow.mk "Q1" 600) (by decide),
   (claim_C4_disjoint exampleCfg exampleInput2).2.2
      (LiftCase.mk "Q2" 5 "MsynABot" (some 100)) (by decide)⟩



theorem countAdd_cons (o : AddOutcome) (os : List AddOutcome) (k : AddOutcome) :
    countAdd (o :: os) k = (if o == k then 1 else 0) + countAdd os k := by
  unfold countAdd
  rw [List.filter_cons]
  cases h : (o == k)
  · simp [h]
  · simp [h]
    omega

theorem sum_countAdd (os : List AddOutcome) :
    (allAddOutcomes.map (fun k => countAdd os k)).sum = os.length := by
  induction os with
  | nil => rfl
  | cons o os ih =>
    simp only [allAddOutcomes, List.map_cons, List.map_nil, List.sum_cons,
      List.sum_nil, countAdd_cons] at ih ⊢
    cases o <;> simp <;> omega

/-- C2: the add operation evaluates its guards in exactly the source order
(usage limit, deny-list, minimum subscriber count only when configured, item
existence, redirect, exactly-unprotected state); the first failing guard
aborts with exactly that outcome and no world change and no mutation call;
the outcome taxonomy partitions every processed case into exactly one
counter; with no hard cap every case of a pass is processed, so a failing
case does not stop the pass. -/
theorem claim_C2_add_guard_order (cfg : Config) (w : World) (bl : List String)
    (c : UsageRow) :
    (c.entityUsageCount < cfg.entityUsageLimit →
      add_protection cfg w bl c = (AddOutcome.belowlimit, w, [])) ∧
    (¬(c.entityUsageCount < cfg.entityUsageLimit) → bl.contains c.qid = true →
      add_protection cfg w bl c = (AddOutcome.blacklisted, w, [])) ∧
    (¬(c.entityUsageCount < cfg.entityUsageLimit) → bl.contains c.qid = false →
      belowMinSubscribed cfg w c.qid = true →
      add_protection cfg w bl c = (AddOutcome.belowsubscribedprojects, w, [])) ∧
    (cfg.minSubscribedProjects = none → belowMinSubscribed cfg w c.qid = false) ∧
    (¬(c.entityUsageCount < cfg.entityUsageLimit) → bl.contains c.qid = false →
      belowMinSubscribed cfg w c.qid = false → (w.items c.qid).pageExists = false →
      add_protection cfg w bl c = (AddOutcome.itemnotexists, w, [])) ∧
    (¬(c.entityUsageCount < cfg.entityUsageLimit) → bl.contains c.qid = false →
      belowMinSubscribed cfg w c.qid = false → (w.items c.qid).pageExists = true →
      (w.items c.qid).isRedirectPage = true →
      add_protection cfg w bl c = (AddOutcome.itemisredirect, w, [])) ∧
    (¬(c.entityUsageCount < cfg.entityUsageLimit) → bl.contains c.qid = false →
      belowMinSubscribed cfg w c.qid = false → (w.items c.qid).pageExists = true →
      (w.items c.qid).isRedirectPage = false →
      dictEqb (w.items c.qid).protection UNPROTECTED = false →
      add_protection cfg w bl c = (AddOutcome.itemhassomeprotection, w, [])) ∧
    (∀ os : List AddOutcome,
      (allAddOutcomes.map (fun k => countAdd os k)).sum = os.length) ∧
    (∀ cases : List UsageRow, cfg.hardLimit = none →
      ((runCases (fun w c => add_protection cfg w bl c)
        cfg.hardLimit w 0 cases).1).length = cases.length) := by
  refine ⟨?_, ?_, ?_, ?_, ?_, ?_, ?_, sum_countAdd, ?_⟩
  · intro h
    simp [add_protection, h]
  · intro h1 h2
    have hm : c.qid ∈ bl := (contains_iff_memStr _ _).mp h2
    simp [add_protection, h1, hm]
  · intro h1 h2 h3
    have hm : c.qid ∉ bl := by
      intro hmem
      rw [(contains_iff_memStr _ _).mpr hmem] at h2
      cases h2
    simp [add_protection, h1, hm, h3]
  · intro h
    simp [belowMinSubscribed, h]
  · intro h1 h2 h3 h4
    have hm : c.qid ∉ bl := by
      intro hmem
      rw [(contains_iff_memStr _ _).mpr hmem] at h2
      cases h2
    simp [add_protection, h1, hm, h3, h4]
  · intro h1 h2 h3 h4 h5
    have hm : c.qid ∉ bl := by
      intro hmem
      rw [(contains_iff_memStr _ _).mpr hmem] at h2
      cases h2
    simp [add_protection, h1, hm, h3, h4, h5]
  · intro h1 h2 h3 h4 h5 h6
    have hm : c.qid ∉ bl := by
      intro hmem
      rw [(contains_iff_memStr _ _).mpr hmem] at h2
      cases h2
    simp [add_protection, h1, hm, h3, h4, h5, h6]
  · intro cases h
    rw [h]
    exact runCases_none_length _ cases w 0



/-- Witness for C2: concrete cases hitting the belowlimit, blacklisted and
itemisredirect guards, and a two-case pass processing both cases. -/
theorem claim_C2_witness :
    add_protection exampleCfg exampleWorld [] (UsageRow.mk "Q1" 100) =
      (AddOutcome.belowlimit, exampleWorld, []) ∧
    add_protection exampleCfg exampleWorld ["Q1"] (UsageRow.mk "Q1" 600) =
      (AddOutcome.blacklisted, exampleWorld, []) ∧
    add_protection exampleCfg
      (World.mk (fun _ => ItemState.mk true true []) (fun _ => 0)
        (fun _ => LogRow.mk "" 0 "") (fun _ => true)) [] (UsageRow.mk "Q1" 600) =
      (AddOutcome.itemisredirect,
        World.mk (fun _ => ItemState.mk true true []) (fun _ => 0)
          (fun _ => LogRow.mk "" 0 "") (fun _ => true), []) ∧
    ((runCases (fun w c => add_protection exampleCfg w [] c) exampleCfg.hardLimit
        exampleWorld 0 [UsageRow.mk "Q1" 600, UsageRow.mk "Q2" 100]).1).length = 2 :=
  ⟨(claim_C2_add_guard_order exampleCfg exampleWorld [] (UsageRow.mk "Q1" 100)).1
      (by decide),
   (claim_C2_add_guard_order exampleCfg exampleWorld ["Q1"] (UsageRow.mk "Q1" 600)).2.1
      (by decide) (by decide),
   (claim_C2_add_guard_order exampleCfg
      (World.mk (fun _ => ItemState.mk true true []) (fun _ => 0)
        (fun _ => LogRow.mk "" 0 "") (fun _ => true)) [] (UsageRow.mk "Q1" 600)).2.2.2.2.2.1
      (by decide) (by decide) (by decide) (by decide) (by decide),
   (claim_C2_add_guard_order exampleCfg exampleWorld [] (UsageRow.mk "Q1" 600)).2.2.2.2.2.2.2.2
      [UsageRow.mk "Q1" 600, UsageRow.mk "Q2" 100] rfl⟩

theorem remove_protection_ne_itemisredirect (cfg : Config) (w : World)
    (early : List EarlyRow) (c : LiftCase) :
    (remove_protection cfg w early c).1 ≠ RemOutcome.itemisredirect := by
  unfold remove_protection
  dsimp only
  repeat' split
  all_goals simp

/-- C10: the remove operation never checks for redirects: no lift case ever
yields the itemisredirect outcome, the removal pass's itemisredirect counter
is zero in every run, and a redirect item passing the other guards proceeds
to the unprotection mutation. -/
theorem claim_C10_no_redirect_guard_on_remove (cfg : Config) (w : World)
    (early : List EarlyRow) (c : LiftCase) (inp : RunInput) :
    ((remove_protection cfg w early c).1 == RemOutcome.itemisredirect) = false ∧
    countRem (main_run cfg inp).liftOutcomes RemOutcome.itemisredirect = 0 ∧
    ((w.items c.qid).isRedirectPage = true →
      usageGE c.entityUsageCount cfg.entityUsageLimit = false →
      lift_authorized cfg w c early = true →
      (w.items c.qid).pageExists = true →
      dictEqb (w.items c.qid).protection SEMIPROTECTED = true →
      cfg.simulate = false →
      w.saveOk c.qid = true →
      remove_protection cfg w early c =
        (RemOutcome.successful, setProtection w c.qid UNPROTECTED,
          [Mutation.mk c.qid [("edit", "all")] none])) := by
  refine ⟨?_, ?_, ?_⟩
  · rw [beq_eq_false_iff_ne]
    exact remove_protection_ne_itemisredirect cfg w early c
  · unfold countRem
    rw [List.length_eq_zero, List.filter_eq_nil_iff]
    intro o ho hbeq
    simp only [main_run] at ho
    unfold liftPass at ho
    split at ho
    · simp only at ho
      rcases runCases_outcomes_are_step_outcomes _ _ _ _ _ _ ho with ⟨w', c', _, rfl⟩
      exact remove_protection_ne_itemisredirect cfg w' _ c' (by simpa using hbeq)
    · simp at ho
  · intro hred husage hauth hex hsemi hsim hsave
    simp [remove_protection, husage, hauth, hex, hsemi, dict_remove_post _ hsemi,
      hsim, hsave]




/-- Witness for C10: a redirect, semiprotected, trusted, low-usage item is
successfully unprotected — the redirect status is ignored. -/
theorem claim_C10_witness :
    remove_protection exampleCfg exampleRedirectWorld []
        (LiftCase.mk "Q1" 0 "MsynABot" (some 100)) =
      (RemOutcome.successful, setProtection exampleRedirectWorld "Q1" UNPROTECTED,
        [Mutation.mk "Q1" [("edit", "all")] none]) :=
  (claim_C10_no_redirect_guard_on_remove exampleCfg exampleRedirectWorld []
      (LiftCase.mk "Q1" 0 "MsynABot" (some 100)) exampleInput2).2.2
    (by decide) (by decide) (by decide) (by decide) (by decide) rfl (by decide)

/-- C6: each pass independently is skipped in its entirety — zero cases, one
informational line — when its configured limit is strictly exceeded, leaving
the other pass unaffected; when the limit allows the pass, no informational
line is printed, a configured hard cap of h stops the loop after exactly the
first h candidates (break, not skip), and with no hard cap every candidate is
processed. -/
theorem claim_C6_pass_circuit_breaker (cfg : Config) (inp : RunInput) (l hcap : Nat) :
    (cfg.addLimit = some l → l < (toAddOf cfg inp).length →
      (main_run cfg inp).addOutcomes = [] ∧
      (main_run cfg inp).addInfo = ["Do not add any protections"] ∧
      (main_run cfg inp).liftOutcomes =
        (main_run { cfg with addLimit := none } inp).liftOutcomes ∧
      (main_run cfg inp).liftInfo =
        (main_run { cfg with addLimit := none } inp).liftInfo) ∧
    (cfg.liftLimit = some l → l < (toLiftOf cfg inp).length →
      (main_run cfg inp).liftOutcomes = [] ∧
      (main_run cfg inp).liftInfo = ["Do not lift any protections"] ∧
      (main_run cfg inp).addOutcomes =
        (addPass cfg inp.world inp.blacklist (toAddOf cfg inp)).outcomes ∧
      (main_run cfg inp).addInfo =
        (addPass cfg inp.world inp.blacklist (toAddOf cfg inp)).info) ∧
    (passAllowed cfg.addLimit (toAddOf cfg inp).length = true →
      (main_run cfg inp).addInfo = []) ∧
    (passAllowed cfg.liftLimit (toLiftOf cfg inp).length = true →
      (main_run cfg inp).liftInfo = []) ∧
    (∀ {σ β : Type} (step : World → σ → β × World × List Mutation)
      (w : World) (cs : List σ), 1 ≤ hcap →
      runCases step (some hcap) w 0 cs = runCases step none w 0 (cs.take hcap)) ∧
    (cfg.hardLimit = none → passAllowed cfg.liftLimit (toLiftOf cfg inp).length = true →
      ((main_run cfg inp).liftOutcomes).length = (toLiftOf cfg inp).length) := by
  refine ⟨?_, ?_, ?_, ?_, ?_, ?_⟩
  · intro hl hlen
    have hfalse : passAllowed cfg.addLimit (toAddOf cfg inp).length = false := by
      rw [hl]
      unfold passAllowed
      simp
      omega
    refine ⟨?_, ?_, rfl, rfl⟩
    · simp only [main_run, addPass, hfalse]
      rw [if_neg Bool.false_ne_true]
    · simp only [main_run, addPass, hfalse]
      rw [if_neg Bool.false_ne_true]
  · intro hl hlen
    have hfalse : passAllowed cfg.liftLimit (toLiftOf cfg inp).length = false := by
      rw [hl]
      unfold passAllowed
      simp
      omega
    refine ⟨?_, ?_, ?_, ?_⟩ <;>
      · simp only [main_run, liftPass, hfalse]
        rw [if_neg Bool.false_ne_true]
  · intro hallow
    simp only [main_run, addPass]
    rw [if_pos hallow]
  · intro hallow
    simp only [main_run, liftPass]
    rw [if_pos hallow]
  · intro σ β step w cs h1
    have := runCases_hardlimit_take step cs w 0 hcap (by omega)
    simpa using this
  · intro hhard hallow
    simp only [main_run, liftPass]
    rw [if_pos hallow]
    simp only [hhard]
    exact runCases_none_length _ _ _ 0



theorem liftPass_simulate (cfg : Config) (hs : cfg.simulate = true) (w : World)
    (early : List EarlyRow) (cs : List LiftCase) :
    (liftPass cfg w early cs).world = w ∧ (liftPass cfg w early cs).mutations = [] := by
  unfold liftPass
  split
  · have h2 := runCases_simulate
      (fun w c => remove_protection cfg w (earlyFor early c.qid) c)
      (fun w' c => remove_protection_simulate cfg w' _ c hs) cfg.hardLimit cs w 0
    exact ⟨congrArg Prod.fst h2, congrArg Prod.snd h2⟩
  · exact ⟨rfl, rfl⟩

theorem addPass_simulate (cfg : Config) (hs : cfg.simulate = true) (w : World)
    (bl : List String) (cs : List UsageRow) :
    (addPass cfg w bl cs).world = w ∧ (addPass cfg w bl cs).mutations = [] := by
  unfold addPass
  split
  · have h2 := runCases_simulate
      (fun w c => add_protection cfg w bl c)
      (fun w' c => add_protection_simulate cfg w' bl c hs) cfg.hardLimit cs w 0
    exact ⟨congrArg Prod.fst h2, congrArg Prod.snd h2⟩
  · exact ⟨rfl, rfl⟩

theorem liftPass_items_outside (cfg : Config) (w : World) (early : List EarlyRow)
    (cs : List LiftCase) (q : String) (hq : q ∉ cs.map (fun c => c.qid)) :
    ((liftPass cfg w early cs).world).items q = w.items q := by
  unfold liftPass
  split
  · exact runCases_items_outside _ (fun c => c.qid)
      (fun w' c q' hq' => remove_protection_items_ne cfg w' _ c q' hq')
      cfg.hardLimit cs w 0 q hq
  · rfl

theorem liftPass_fields (cfg : Config) (w : World) (early : List EarlyRow)
    (cs : List LiftCase) :
    ((liftPass cfg w early cs).world).subscribers = w.subscribers ∧
      ((liftPass cfg w early cs).world).latestProtectLog = w.latestProtectLog ∧
      ((liftPass cfg w early cs).world).saveOk = w.saveOk := by
  unfold liftPass
  split
  · exact runCases_fields _ (fun w' c => remove_protection_fields cfg w' _ c)
      cfg.hardLimit cs w 0
  · exact ⟨rfl, rfl, rfl⟩

theorem liftPass_outcomes_lockstep (cfg : Config) (hs : cfg.simulate = false)
    (early : List EarlyRow) (cs : List LiftCase) (w w0 : World)
    (hall : ∀ c ∈ cs, w.items c.qid = w0.items c.qid)
    (hlog : w.latestProtectLog = w0.latestProtectLog)
    (hsave : w.saveOk = w0.saveOk)
    (hok : ∀ q, w0.saveOk q = true)
    (hnodup : (cs.map (fun c => c.qid)).Nodup) :
    (liftPass cfg w early cs).outcomes =
      (liftPass { cfg with simulate := true } w0 early cs).outcomes := by
  unfold liftPass
  dsimp only
  split
  · exact runCases_remove_lockstep cfg early hs cs w w0 0 hall hlog hsave hok hnodup
  · rfl

theorem addPass_outcomes_lockstep (cfg : Config) (hs : cfg.simulate = false)
    (bl : List String) (cs : List UsageRow) (w w0 : World)
    (hall : ∀ c ∈ cs, w.items c.qid = w0.items c.qid)
    (hsub : w.subscribers = w0.subscribers)
    (hsave : w.saveOk = w0.saveOk)
    (hok : ∀ q, w0.saveOk q = true)
    (hnodup : (cs.map (fun c => c.qid)).Nodup) :
    (addPass cfg w bl cs).outcomes =
      (addPass { cfg with simulate := true } w0 bl cs).outcomes := by
  unfold addPass
  dsimp only
  split
  · exact runCases_add_lockstep cfg bl hs cs w w0 0 hall hsub hsave hok hnodup
  · rfl



/-- Witness for C6: with an add limit of 0 and one add candidate the add pass
is skipped with one informational line; a hard cap of 1 on a two-case pass
equals processing only the first case. -/
theorem claim_C6_witness :
    (main_run { exampleCfg with addLimit := some 0 } exampleInput2).addOutcomes = [] ∧
    (main_run { exampleCfg with addLimit := some 0 } exampleInput2).addInfo =
      ["Do not add any protections"] ∧
    runCases (fun (w : World) (c : UsageRow) => add_protection exampleCfg w [] c)
        (some 1) exampleWorld 0 [UsageRow.mk "Q1" 600, UsageRow.mk "Q2" 700] =
      runCases (fun (w : World) (c : UsageRow) => add_protection exampleCfg w [] c)
        none exampleWorld 0 ([UsageRow.mk "Q1" 600, UsageRow.mk "Q2" 700].take 1) :=
  ⟨((claim_C6_pass_circuit_breaker { exampleCfg with addLimit := some 0 }
      exampleInput2 0 1).1 rfl (by decide)).1,
   ((claim_C6_pass_circuit_breaker { exampleCfg with addLimit := some 0 }
      exampleInput2 0 1).1 rfl (by decide)).2.1,
   (claim_C6_pass_circuit_breaker exampleCfg exampleInput2 0 1).2.2.2.2.1
      (fun w c => add_protection exampleCfg w [] c) exampleWorld
      [UsageRow.mk "Q1" 600, UsageRow.mk "Q2" 700] (by decide)⟩

/-- C5 (amended): when the usage feed has no duplicate identifiers and every
attempted remote mutation would succeed, a simulate-mode run produces
exactly the same lift and add outcome sequences as a real run over identical
inputs, while issuing zero remote mutation calls and leaving remote state
unchanged. -/
theorem claim_C5_amended (cfg : Config) (inp : RunInput)
    (hs : cfg.simulate = false)
    (hnodup : (inp.top.map (fun r => r.qid)).Nodup)
    (hok : ∀ q, inp.world.saveOk q = true) :
    (main_run { cfg with simulate := true } inp).liftOutcomes =
      (main_run cfg inp).liftOutcomes ∧
    (main_run { cfg with simulate := true } inp).addOutcomes =
      (main_run cfg inp).addOutcomes ∧
    (main_run { cfg with simulate := true } inp).mutations = [] ∧
    (main_run { cfg with simulate := true } inp).world = inp.world := by
  have hnlift : ((toLiftOf cfg inp).map (fun c => c.qid)).Nodup :=
    nodup_toLift_keys cfg inp.top _ hnodup
      (nodup_phu_keys cfg _ _ (nodupKeys_dropDupKeepLast _ _))
  have hnadd : ((toAddOf cfg inp).map (fun r => r.qid)).Nodup :=
    nodup_toAdd_keys cfg inp.top _ hnodup
  have hlock1 :
      (liftPass cfg inp.world (get_early_item_protections inp.earlyRaw)
        (toLiftOf cfg inp)).outcomes =
      (liftPass { cfg with simulate := true } inp.world
        (get_early_item_protections inp.earlyRaw) (toLiftOf cfg inp)).outcomes :=
    liftPass_outcomes_lockstep cfg hs _ _ inp.world inp.world
      (fun _ _ => rfl) rfl rfl hok hnlift
  have hlpS := liftPass_simulate { cfg with simulate := true } rfl inp.world
    (get_early_item_protections inp.earlyRaw) (toLiftOf cfg inp)
  have hall : ∀ c ∈ toAddOf cfg inp,
      ((liftPass cfg inp.world (get_early_item_protections inp.earlyRaw)
        (toLiftOf cfg inp)).world).items c.qid = inp.world.items c.qid := by
    intro c hc
    apply liftPass_items_outside
    exact toAdd_toLift_qid_disjoint cfg inp c.qid (List.mem_map_of_mem _ hc)
  obtain ⟨f1, f2, f3⟩ := liftPass_fields cfg inp.world
    (get_early_item_protections inp.earlyRaw) (toLiftOf cfg inp)
  have hlock2 :
      (addPass cfg (liftPass cfg inp.world (get_early_item_protections inp.earlyRaw)
          (toLiftOf cfg inp)).world inp.blacklist (toAddOf cfg inp)).outcomes =
      (addPass { cfg with simulate := true } inp.world inp.blacklist
          (toAddOf cfg inp)).outcomes :=
    addPass_outcomes_lockstep cfg hs inp.blacklist (toAddOf cfg inp) _ inp.world
      hall f1 f3 hok hnadd
  have hapS := addPass_simulate { cfg with simulate := true } rfl
    (liftPass { cfg with simulate := true } inp.world
      (get_early_item_protections inp.earlyRaw) (toLiftOf cfg inp)).world
    inp.blacklist (toAddOf cfg inp)
  have hliftC : toLiftOf { cfg with simulate := true } inp = toLiftOf cfg inp := rfl
  have haddC : toAddOf { cfg with simulate := true } inp = toAddOf cfg inp := rfl
  refine ⟨?_, ?_, ?_, ?_⟩
  · simp only [main_run]
    rw [hliftC]
    exact hlock1.symm
  · simp only [main_run]
    rw [hliftC, haddC, hlpS.1]
    exact hlock2.symm
  · simp only [main_run]
    rw [hliftC, haddC, hlpS.2, hapS.2]
    rfl
  · simp only [main_run]
    rw [hliftC, haddC, hapS.1, hlpS.1]

/-- Counterexample to C5 as stated: over identical inputs whose usage feed
lists Q1 twice, the real run protects Q1 once and then sees it as already
protected (one success), while the simulate run records two successes — the
outcome-counter distributions differ. -/
theorem claim_C5_counterexample :
    countAdd (main_run { exampleCfg with simulate := true } exampleDupInput).addOutcomes
        AddOutcome.successful ≠
      countAdd (main_run exampleCfg exampleDupInput).addOutcomes
        AddOutcome.successful := by
  decide

/-- Witness for C5 (amended): on a duplicate-free input with reliable saves,
the simulate run and the real run agree on all outcomes, with no mutations
and unchanged world on the simulate side. -/
theorem claim_C5_witness :
    (main_run { exampleCfg with simulate := true } exampleInput2).liftOutcomes =
      (main_run exampleCfg exampleInput2).liftOutcomes ∧
    (main_run { exampleCfg with simulate := true } exampleInput2).addOutcomes =
      (main_run exampleCfg exampleInput2).addOutcomes ∧
    (main_run { exampleCfg with simulate := true } exampleInput2).mutations = [] ∧
    (main_run { exampleCfg with simulate := true } exampleInput2).world =
      exampleInput2.world :=
  claim_C5_amended exampleCfg exampleInput2 rfl (by decide) (fun q => rfl)

end RfcProtect
